import Mathlib

/-!
Verification of the blogmbktech content core: the transactional post write
workflow, category/post deletion contracts, comment visibility, reply
counting, and comment submission guards, shallowly embedded from
`routes/dashboard.js`, `routes/blog.js` and the SQL schema.
-/

namespace BlogSpec

/-- A row of the `Posts` table (the columns the studied routes read or write). -/
structure PostRow where
  id : Nat
  title : String
  slug : String
  excerpt : Option String
  content_markdown : String
  status : String
  preview_image : Option String
  username : Option String
  deriving DecidableEq, Repr

/-- A row of the `Categories` table. -/
structure CategoryRow where
  id : Nat
  name : String
  deriving DecidableEq, Repr

/-- A row of the `Tags` table. -/
structure TagRow where
  id : Nat
  name : String
  deriving DecidableEq, Repr

/-- A row of the `Post_Categories` join table; `category_id` is an `Int`
because the route inserts whatever `parseInt` produced. -/
structure PostCategoryRow where
  post_id : Nat
  category_id : Int
  deriving DecidableEq, Repr

/-- A row of the `Post_Tags` join table. -/
structure PostTagRow where
  post_id : Nat
  tag_id : Nat
  deriving DecidableEq, Repr

/-- A row of the `Comments` table. -/
structure CommentRow where
  id : Nat
  content : String
  username : Option String
  post_id : Nat
  parent_id : Option Nat
  is_approved : Bool
  created_at : Nat
  deriving DecidableEq, Repr

/-- The relational state the routes operate on, plus the `SERIAL` counters. -/
structure DB where
  users : List String
  posts : List PostRow
  categories : List CategoryRow
  tags : List TagRow
  post_categories : List PostCategoryRow
  post_tags : List PostTagRow
  comments : List CommentRow
  nextPostId : Nat
  nextTagId : Nat
  nextCommentId : Nat
  deriving DecidableEq, Repr

/-- `req.session.user` as the routes consult it. -/
structure SessionUser where
  username : String
  role : String
  deriving DecidableEq, Repr

/-! ### Slug derivation

`title.toLowerCase().replace(/[^a-z0-9]+/g, '-').replace(/^-|-$/g, '')` -/

/-- Characters the slug regex `[^a-z0-9]` keeps unchanged. -/
def isSlugChar (c : Char) : Bool := ('a' ≤ c && c ≤ 'z') || ('0' ≤ c && c ≤ '9')

/-- `replace(/[^a-z0-9]+/g, '-')`: each maximal run of non-slug characters
becomes one hyphen. The flag records that the current run already emitted
its hyphen. -/
def collapseAux : Bool → List Char → List Char
  | _, [] => []
  | inRun, c :: rest =>
    if isSlugChar c then c :: collapseAux false rest
    else if inRun then collapseAux true rest
    else '-' :: collapseAux true rest

/-- Remove one leading hyphen, as the `^-` alternative of `/^-|-$/g` does. -/
def dropLeadHyphen : List Char → List Char
  | [] => []
  | c :: rest => if c = '-' then rest else c :: rest

/-- `replace(/^-|-$/g, '')`: strip one leading and one trailing hyphen. -/
def stripEdgeHyphens (l : List Char) : List Char :=
  (dropLeadHyphen ((dropLeadHyphen l).reverse)).reverse

/-- The slug expression used verbatim by both the create and the update route. -/
def slugify (title : String) : String :=
  ⟨stripEdgeHyphens (collapseAux false (title.data.map Char.toLower))⟩

/-! ### Create / update post -/

/-- The `categories` field after the route's boundary parsing: absent,
a payload whose `JSON.parse`/array traversal throws, or the parsed array
entries after `parseInt` (`none` for a NaN entry, later filtered out). -/
inductive CategoriesField where
  | absent
  | malformed
  | entries (xs : List (Option Int))
  deriving DecidableEq, Repr

/-- The `tags` field: absent, a payload whose `JSON.parse` throws (caught only
by the outer catch), or the parsed array of tag names. -/
inductive TagsField where
  | absent
  | malformed
  | names (xs : List String)
  deriving DecidableEq, Repr

/-- The request body of `POST /api/posts` and `PUT /api/posts/:id`. -/
structure CreatePostRequest where
  title : String
  content : String
  excerpt : Option String
  categories : CategoriesField
  tags : TagsField
  status : Option String
  preview_image : Option String
  deriving DecidableEq, Repr

/-- Errors a statement inside the transaction can raise. -/
inductive TxError where
  | uniqueViolation
  | fkViolation
  | jsonError
  deriving DecidableEq, Repr

/-- The validated category id list: `none` when parsing throws, otherwise the
entries surviving `map(parseInt).filter(!isNaN)` (`[]` when the field is
absent, so the emptiness check below fires). -/
def parsedCategoryIds : CategoriesField → Option (List Int)
  | .absent => some []
  | .malformed => none
  | .entries xs => some (xs.filterMap id)

/-- `status || 'draft'`: only an absent or empty status falls back to draft. -/
def effectiveStatus : Option String → String
  | none => "draft"
  | some s => if s == "" then "draft" else s

/-- `INSERT INTO Posts ...` with the `UNIQUE(slug)`, `PRIMARY KEY(id)` and
`"UserName"` foreign-key constraints of the schema. -/
def insertPost (db : DB) (p : PostRow) : Except TxError DB :=
  if db.posts.any (fun q => q.slug == p.slug) then .error .uniqueViolation
  else if db.posts.any (fun q => q.id == p.id) then .error .uniqueViolation
  else
    match p.username with
    | some u =>
      if db.users.contains u then .ok { db with posts := db.posts ++ [p] }
      else .error .fkViolation
    | none => .ok { db with posts := db.posts ++ [p] }

/-- `INSERT INTO Post_Categories (post_id, category_id)` with the composite
primary key and both foreign keys of the schema. -/
def insertPostCategory (db : DB) (pid : Nat) (cid : Int) : Except TxError DB :=
  if db.post_categories.any (fun r => r.post_id == pid && r.category_id == cid) then
    .error .uniqueViolation
  else if db.posts.any (fun q => q.id == pid) && db.categories.any (fun c => (c.id : Int) == cid) then
    .ok { db with post_categories := db.post_categories ++ [⟨pid, cid⟩] }
  else .error .fkViolation

/-- `INSERT INTO Post_Tags (post_id, tag_id)` with the composite primary key
and both foreign keys of the schema. -/
def insertPostTag (db : DB) (pid tid : Nat) : Except TxError DB :=
  if db.post_tags.any (fun r => r.post_id == pid && r.tag_id == tid) then
    .error .uniqueViolation
  else if db.posts.any (fun q => q.id == pid) && db.tags.any (fun t => t.id == tid) then
    .ok { db with post_tags := db.post_tags ++ [⟨pid, tid⟩] }
  else .error .fkViolation

/-- The category loop of the create/update routes: one link insert per id. -/
def insertCategoryLinks (pid : Nat) : DB → List Int → Except TxError DB
  | db, [] => .ok db
  | db, cid :: rest => do
    let db1 ← insertPostCategory db pid cid
    insertCategoryLinks pid db1 rest

/-- JavaScript `trim()`: drop leading and trailing whitespace. -/
def trimString (s : String) : String :=
  ⟨((s.data.dropWhile Char.isWhitespace).reverse.dropWhile Char.isWhitespace).reverse⟩

/-- `tagName.toLowerCase().trim()`. -/
def normalizeTagName (name : String) : String :=
  trimString ⟨name.data.map Char.toLower⟩

/-- `SELECT id FROM Tags WHERE name = $1`, then `INSERT INTO Tags` if absent. -/
def getOrCreateTag (db : DB) (name : String) : DB × Nat :=
  match db.tags.find? (fun t => t.name == name) with
  | some t => (db, t.id)
  | none =>
    ({ db with tags := db.tags ++ [⟨db.nextTagId, name⟩], nextTagId := db.nextTagId + 1 },
      db.nextTagId)

/-- The tag loop of the create/update routes: normalize, get-or-create, link. -/
def insertTagLinks (pid : Nat) : DB → List String → Except TxError DB
  | db, [] => .ok db
  | db, name :: rest => do
    let pair := getOrCreateTag db (normalizeTagName name)
    let db2 ← insertPostTag pair.1 pid pair.2
    insertTagLinks pid db2 rest

/-- `if (tags) { const tagArray = JSON.parse(tags); ... }`. -/
def handleTagsField (pid : Nat) (db : DB) : TagsField → Except TxError DB
  | .absent => .ok db
  | .malformed => .error .jsonError
  | .names xs => insertTagLinks pid db xs

/-- The response of `POST /api/posts`. -/
inductive CreatePostResult where
  | created (id : Nat)
  | titleContentRequired
  | invalidCategoriesFormat
  | categoryRequired
  | serverError
  deriving DecidableEq, Repr

/-- The 400-class responses of the create route. -/
def CreatePostResult.isClientInputError : CreatePostResult → Bool
  | .titleContentRequired => true
  | .invalidCategoriesFormat => true
  | .categoryRequired => true
  | _ => false

/-- The VALUES tuple of the route's `INSERT INTO Posts`: title, derived slug,
excerpt, content, `status || 'draft'`, preview image, session username. -/
def newPostRow (req : CreatePostRequest) (user : SessionUser) (pid : Nat) : PostRow :=
  { id := pid, title := req.title, slug := slugify req.title, excerpt := req.excerpt,
    content_markdown := req.content, status := effectiveStatus req.status,
    preview_image := req.preview_image, username := some user.username }

/-- The statements between BEGIN and COMMIT of `POST /api/posts`, threaded on
a working copy of the database. -/
def createPostTx (req : CreatePostRequest) (user : SessionUser) (ids : List Int)
    (db : DB) : Except TxError (DB × Nat) := do
  let pid := db.nextPostId
  let db1 ← insertPost { db with nextPostId := db.nextPostId + 1 } (newPostRow req user pid)
  let db2 ← insertCategoryLinks pid db1 ids
  let db3 ← handleTagsField pid db2 req.tags
  .ok (db3, pid)

/-- `POST /api/posts`: validation, then the transaction; any thrown step
rolls the whole write back (the original `db` is returned). -/
def createPostHandler (req : CreatePostRequest) (user : SessionUser) (db : DB) :
    DB × CreatePostResult :=
  if req.title == "" || req.content == "" then (db, .titleContentRequired)
  else
    match parsedCategoryIds req.categories with
    | none => (db, .invalidCategoriesFormat)
    | some ids =>
      if ids.isEmpty then (db, .categoryRequired)
      else
        match createPostTx req user ids db with
        | .error _ => (db, .serverError)
        | .ok (db1, pid) => (db1, .created pid)

/-- The response of `PUT /api/posts/:id`. -/
inductive UpdatePostResult where
  | updated
  | titleContentRequired
  | invalidCategoriesFormat
  | categoryRequired
  | serverError
  deriving DecidableEq, Repr

/-- The SET clause of the route's `UPDATE Posts`: new title, recomputed slug,
excerpt, content, `status || 'draft'`, preview image. -/
def updatedPostRow (req : CreatePostRequest) (p : PostRow) : PostRow :=
  { p with
    title := req.title,
    slug := slugify req.title,
    excerpt := req.excerpt,
    content_markdown := req.content,
    status := effectiveStatus req.status,
    preview_image := req.preview_image }

/-- The route's `UPDATE Posts SET ... WHERE id = $7` statement. -/
def setPostRow (req : CreatePostRequest) (postId : Nat) (db : DB) : DB :=
  { db with posts := db.posts.map (fun p =>
      if p.id == postId then updatedPostRow req p else p) }

/-- The route's `DELETE FROM Post_Categories WHERE post_id = $1` statement. -/
def deleteCategoryLinks (postId : Nat) (db : DB) : DB :=
  { db with post_categories := db.post_categories.filter (fun r => r.post_id != postId) }

/-- The route's `DELETE FROM Post_Tags WHERE post_id = $1` statement. -/
def deleteTagLinks (postId : Nat) (db : DB) : DB :=
  { db with post_tags := db.post_tags.filter (fun r => r.post_id != postId) }

/-- The statements between BEGIN and COMMIT of `PUT /api/posts/:id`:
UPDATE the row, replace the category links, replace the tag links; the UPDATE
respects the slug uniqueness constraint of the schema. -/
def updatePostTx (req : CreatePostRequest) (postId : Nat) (ids : List Int)
    (db : DB) : Except TxError DB := do
  if db.posts.any (fun p => p.id != postId && p.slug == slugify req.title) then
    .error .uniqueViolation
  else
    let db3 ← insertCategoryLinks postId (deleteCategoryLinks postId (setPostRow req postId db)) ids
    handleTagsField postId (deleteTagLinks postId db3) req.tags

/-- `PUT /api/posts/:id`. -/
def updatePostHandler (req : CreatePostRequest) (postId : Nat) (db : DB) :
    DB × UpdatePostResult :=
  if req.title == "" || req.content == "" then (db, .titleContentRequired)
  else
    match parsedCategoryIds req.categories with
    | none => (db, .invalidCategoriesFormat)
    | some ids =>
      if ids.isEmpty then (db, .categoryRequired)
      else
        match updatePostTx req postId ids db with
        | .error _ => (db, .serverError)
        | .ok db1 => (db1, .updated)

/-! ### Delete post / delete category -/

/-- The DELETE statements `DELETE /api/posts/:id` issues, in program order. -/
inductive DeleteStep where
  | delComments
  | delPostTags
  | delPostCategories
  | delPostRow
  deriving DecidableEq, Repr

/-- The response of `DELETE /api/posts/:id`. -/
inductive DeletePostResult where
  | deleted
  | notFound
  deriving DecidableEq, Repr

/-- `DELETE /api/posts/:id`: existence check, then comments, post_tags,
post_categories, posts, inside one transaction; the middle component records
which DELETE statements ran and in which order. -/
def deletePostHandler (db : DB) (postId : Nat) : DB × List DeleteStep × DeletePostResult :=
  if db.posts.any (fun p => p.id == postId) then
    let db1 : DB := { db with comments := db.comments.filter (fun c => c.post_id != postId) }
    let db2 : DB := { db1 with post_tags := db1.post_tags.filter (fun r => r.post_id != postId) }
    let db3 : DB :=
      { db2 with post_categories := db2.post_categories.filter (fun r => r.post_id != postId) }
    let db4 : DB := { db3 with posts := db3.posts.filter (fun p => p.id != postId) }
    (db4, [.delComments, .delPostTags, .delPostCategories, .delPostRow], .deleted)
  else (db, [], .notFound)

/-- The response of `DELETE /api/categories/:id`; `conflict` carries the
post count interpolated into the error message. -/
inductive DeleteCategoryResult where
  | deleted
  | conflict (count : Nat)
  | notFound
  deriving DecidableEq, Repr

/-- `DELETE /api/categories/:id`: count the referencing `Post_Categories`
rows; a positive count blocks the deletion, otherwise delete and report
not-found when no row was removed. -/
def deleteCategoryHandler (db : DB) (catId : Nat) : DB × DeleteCategoryResult :=
  let postCount := (db.post_categories.filter (fun r => r.category_id == (catId : Int))).length
  if 0 < postCount then (db, .conflict postCount)
  else if db.categories.any (fun c => c.id == catId) then
    ({ db with categories := db.categories.filter (fun c => c.id != catId) }, .deleted)
  else (db, .notFound)

/-! ### Comment visibility, thread building, comment submission -/

/-- The WHERE clause selected by `GET /post/:slug` for the viewer: SuperAdmin
gets every comment of the post, an authenticated user gets
`is_approved = true OR "UserName" = $2`, an anonymous viewer gets
`is_approved = true`. -/
def commentVisible (viewer : Option SessionUser) (c : CommentRow) : Bool :=
  match viewer with
  | some u =>
    if u.role == "SuperAdmin" then true
    else c.is_approved || c.username == some u.username
  | none => c.is_approved

/-- The comment query of `GET /post/:slug`: filter by post and viewer
visibility, `ORDER BY created_at DESC`. -/
def commentsForViewer (db : DB) (postId : Nat) (viewer : Option SessionUser) : List CommentRow :=
  List.insertionSort (fun a b => b.created_at ≤ a.created_at)
    (db.comments.filter (fun c => c.post_id == postId && commentVisible viewer c))

/-- `comment.replyCount = comments.rows.filter(reply => reply.parent_id ===
comment.id).length`, over the already-fetched row set. -/
def annotateReplyCounts (rows : List CommentRow) : List (CommentRow × Nat) :=
  rows.map (fun c => (c, (rows.filter (fun reply => reply.parent_id == some c.id)).length))

/-- The comment view records `GET /post/:slug` hands to the template. -/
def buildCommentThread (db : DB) (postId : Nat) (viewer : Option SessionUser) :
    List (CommentRow × Nat) :=
  annotateReplyCounts (commentsForViewer db postId viewer)

/-- The response of `POST /post/:slug/comment`. -/
inductive AddCommentResult where
  | ok
  | contentRequired
  | postNotFound
  | invalidParent
  deriving DecidableEq, Repr

/-- `POST /post/:slug/comment`: content required, target post must exist with
status published, a supplied parent must be a comment of the same post; the
insert stores the trimmed content, unapproved. -/
def addCommentHandler (db : DB) (user : SessionUser) (slug : String) (content : String)
    (parentId : Option Nat) (now : Nat) : DB × AddCommentResult :=
  if trimString content == "" then (db, .contentRequired)
  else
    match db.posts.find? (fun p => p.slug == slug && p.status == "published") with
    | none => (db, .postNotFound)
    | some post =>
      let parentOk := match parentId with
        | none => true
        | some pid => db.comments.any (fun c => c.id == pid && c.post_id == post.id)
      if parentOk then
        ({ db with
            comments := db.comments ++
              [{ id := db.nextCommentId, content := trimString content,
                 username := some user.username, post_id := post.id,
                 parent_id := parentId, is_approved := false, created_at := now }],
            nextCommentId := db.nextCommentId + 1 }, .ok)
      else (db, .invalidParent)

/-! ### Concrete instances -/

/-- The seeded SuperAdmin of the schema's default data. -/
def userAdmin : SessionUser := ⟨"admin", "SuperAdmin"⟩

/-- A small initial database: three users, one category, nothing else. -/
def db0 : DB :=
  { users := ["admin", "A", "B"], posts := [], categories := [⟨1, "Technology"⟩],
    tags := [], post_categories := [], post_tags := [], comments := [],
    nextPostId := 1, nextTagId := 1, nextCommentId := 1 }

/-- A well-formed create request: title T, content C, category 1, no tags. -/
def reqBase : CreatePostRequest :=
  { title := "T", content := "C", excerpt := none, categories := .entries [some 1],
    tags := .absent, status := none, preview_image := none }

/-- The P3 tag list, three spellings of one normalized name. -/
def reqDupTags : CreatePostRequest := { reqBase with tags := .names ["JS", " js ", "Js"] }

/-- A single tag whose spelling needs both lowercasing and trimming. -/
def reqOneTag : CreatePostRequest := { reqBase with tags := .names [" JS "] }

/-- A status value outside draft/published/private. -/
def reqBogusStatus : CreatePostRequest := { reqBase with status := some "bogus" }

/-- The same category id supplied twice. -/
def reqDupCats : CreatePostRequest := { reqBase with categories := .entries [some 1, some 1] }

/-- A categories payload whose parse throws. -/
def reqMalformedCats : CreatePostRequest := { reqBase with categories := .malformed }

/-- A published post with slug t. -/
def postPub : PostRow := ⟨1, "T", "t", none, "C", "published", none, some "A"⟩

/-- The same post saved as a draft. -/
def postDraft : PostRow := ⟨1, "T", "t", none, "C", "draft", none, some "A"⟩

/-- P5: an approved comment by user A. -/
def cmtA : CommentRow := ⟨1, "from A", some "A", 1, none, true, 1⟩

/-- P5: an unapproved comment by user B on the same post. -/
def cmtB : CommentRow := ⟨2, "from B", some "B", 1, none, false, 2⟩

/-- The P5 state: one published post carrying the two comments. -/
def dbTwoComments : DB := { db0 with posts := [postPub], comments := [cmtA, cmtB] }

/-- P6 comment 1: a root comment. -/
def cmt1 : CommentRow := ⟨1, "root", some "A", 1, none, true, 1⟩

/-- P6 comment 2: a reply to comment 1. -/
def cmt2 : CommentRow := ⟨2, "reply to 1", some "A", 1, some 1, true, 2⟩

/-- P6 comment 3: a second reply to comment 1. -/
def cmt3 : CommentRow := ⟨3, "reply to 1", some "A", 1, some 1, true, 3⟩

/-- P6 comment 4: a reply to comment 2. -/
def cmt4 : CommentRow := ⟨4, "reply to 2", some "A", 1, some 2, true, 4⟩

/-- The P6 state: the four-comment thread, all approved. -/
def dbThread : DB := { db0 with posts := [postPub], comments := [cmt1, cmt2, cmt3, cmt4] }

/-- A state with one fully linked, commented post, for the deletion claims. -/
def dbPost1 : DB :=
  { db0 with
    posts := [postPub], tags := [⟨1, "js"⟩], post_categories := [⟨1, 1⟩],
    post_tags := [⟨1, 1⟩], comments := [cmt1] }

/-- A state where category 1 is referenced by one post. -/
def dbCatUsed : DB := { db0 with posts := [postPub], post_categories := [⟨1, 1⟩] }

/-! ### Helper lemmas -/

/-- A successful post insert appends exactly the new row. -/
theorem insertPost_ok {db db' : DB} {p : PostRow}
    (h : insertPost db p = Except.ok db') :
    db' = { db with posts := db.posts ++ [p] } := by
  rw [insertPost] at h
  split at h
  · cases h
  · split at h
    · cases h
    · split at h
      · split at h
        · cases h
          rfl
        · cases h
      · cases h
        rfl

/-- A successful category-link insert appends exactly the new pair. -/
theorem insertPostCategory_ok {db db' : DB} {pid : Nat} {cid : Int}
    (h : insertPostCategory db pid cid = Except.ok db') :
    db' = { db with post_categories := db.post_categories ++ [⟨pid, cid⟩] } := by
  rw [insertPostCategory] at h
  split at h
  · cases h
  · split at h
    · cases h
      rfl
    · cases h

/-- A category-link insert only succeeds when the pair is not yet present. -/
theorem insertPostCategory_ok_fresh {db db' : DB} {pid : Nat} {cid : Int}
    (h : insertPostCategory db pid cid = Except.ok db') :
    db.post_categories.any (fun r => r.post_id == pid && r.category_id == cid) = false := by
  rw [insertPostCategory] at h
  split at h
  · cases h
  · simp_all

/-- A successful tag-link insert appends exactly the new pair. -/
theorem insertPostTag_ok {db db' : DB} {pid tid : Nat}
    (h : insertPostTag db pid tid = Except.ok db') :
    db' = { db with post_tags := db.post_tags ++ [⟨pid, tid⟩] } := by
  rw [insertPostTag] at h
  split at h
  · cases h
  · split at h
    · cases h
      rfl
    · cases h

/-- Get-or-create never touches the posts table. -/
theorem getOrCreateTag_posts (db : DB) (name : String) :
    (getOrCreateTag db name).1.posts = db.posts := by
  rw [getOrCreateTag]
  split <;> rfl

/-- The category-link loop never touches the posts table. -/
theorem insertCategoryLinks_ok_posts {pid : Nat} : ∀ {ids : List Int} {db db' : DB},
    insertCategoryLinks pid db ids = Except.ok db' → db'.posts = db.posts := by
  intro ids
  induction ids with
  | nil =>
    intro db db' h
    cases h
    rfl
  | cons c rest ih =>
    intro db db' h
    rw [insertCategoryLinks] at h
    cases h1 : insertPostCategory db pid c with
    | error e => rw [h1] at h; cases h
    | ok db1 =>
      rw [h1] at h
      simp only [bind, Except.bind] at h
      rw [ih h, insertPostCategory_ok h1]

/-- The tag loop never touches the posts table. -/
theorem insertTagLinks_ok_posts {pid : Nat} : ∀ {xs : List String} {db db' : DB},
    insertTagLinks pid db xs = Except.ok db' → db'.posts = db.posts := by
  intro xs
  induction xs with
  | nil =>
    intro db db' h
    cases h
    rfl
  | cons name rest ih =>
    intro db db' h
    rw [insertTagLinks] at h
    cases h2 : insertPostTag (getOrCreateTag db (normalizeTagName name)).1 pid
        (getOrCreateTag db (normalizeTagName name)).2 with
    | error e => rw [h2] at h; cases h
    | ok db2 =>
      rw [h2] at h
      simp only [bind, Except.bind] at h
      rw [ih h, insertPostTag_ok h2]
      exact getOrCreateTag_posts db (normalizeTagName name)

/-- Handling the tags field never touches the posts table. -/
theorem handleTagsField_ok_posts {pid : Nat} {db db' : DB} {tf : TagsField}
    (h : handleTagsField pid db tf = Except.ok db') : db'.posts = db.posts := by
  cases tf with
  | absent => cases h; rfl
  | malformed => cases h
  | names xs => exact insertTagLinks_ok_posts h

/-- A committed create transaction returns the fresh id and appends exactly
the new post row to the posts table. -/
theorem createPostTx_ok {req : CreatePostRequest} {user : SessionUser} {ids : List Int}
    {db db' : DB} {pid : Nat}
    (h : createPostTx req user ids db = Except.ok (db', pid)) :
    pid = db.nextPostId ∧
    db'.posts = db.posts ++ [newPostRow req user db.nextPostId] := by
  rw [createPostTx] at h
  cases h1 : insertPost { db with nextPostId := db.nextPostId + 1 }
      (newPostRow req user db.nextPostId) with
  | error e => rw [h1] at h; cases h
  | ok db1 =>
    rw [h1] at h
    simp only [bind, Except.bind] at h
    cases h2 : insertCategoryLinks db.nextPostId db1 ids with
    | error e => rw [h2] at h; cases h
    | ok db2 =>
      rw [h2] at h
      try dsimp only at h
      cases h3 : handleTagsField db.nextPostId db2 req.tags with
      | error e => rw [h3] at h; cases h
      | ok db3 =>
        rw [h3] at h
        try dsimp only at h
        cases h
        refine ⟨rfl, ?_⟩
        rw [handleTagsField_ok_posts h3, insertCategoryLinks_ok_posts h2, insertPost_ok h1]

/-- A committed update transaction rewrites every post row carrying the
target id with the request's SET clause and leaves other rows alone. -/
theorem updatePostTx_ok_posts {req : CreatePostRequest} {postId : Nat} {ids : List Int}
    {db db' : DB}
    (h : updatePostTx req postId ids db = Except.ok db') :
    db'.posts = db.posts.map (fun p => if p.id == postId then updatedPostRow req p else p) := by
  rw [updatePostTx] at h
  split at h
  · cases h
  · simp only [bind, Except.bind] at h
    cases h2 : insertCategoryLinks postId (deleteCategoryLinks postId (setPostRow req postId db)) ids with
    | error e => rw [h2] at h; cases h
    | ok db3 =>
      rw [h2] at h
      try dsimp only at h
      rw [handleTagsField_ok_posts h]
      rw [show (deleteTagLinks postId db3).posts = db3.posts from rfl]
      rw [insertCategoryLinks_ok_posts h2]
      rfl

/-- C1: a create-post request whose category payload fails to parse or
resolves to an empty id set is answered with a client input error and leaves
the database untouched; more generally, any response other than created
leaves the database exactly as it was (full rollback, no partial write). -/
theorem c1_atomic_create : ∀ (req : CreatePostRequest) (user : SessionUser) (db db' : DB)
    (r : CreatePostResult), createPostHandler req user db = (db', r) →
    ((parsedCategoryIds req.categories = none ∨ parsedCategoryIds req.categories = some []) →
      r.isClientInputError = true ∧ db' = db) ∧
    ((∀ i, r ≠ CreatePostResult.created i) → db' = db) := by
  intro req user db db' r h
  rw [createPostHandler] at h
  split at h
  · cases h
    exact ⟨fun _ => ⟨rfl, rfl⟩, fun _ => rfl⟩
  · cases hp : parsedCategoryIds req.categories with
    | none =>
      rw [hp] at h
      cases h
      exact ⟨fun _ => ⟨rfl, rfl⟩, fun _ => rfl⟩
    | some ids =>
      rw [hp] at h
      try dsimp only at h
      split at h
      · cases h
        exact ⟨fun _ => ⟨rfl, rfl⟩, fun _ => rfl⟩
      · rename_i hne
        cases htx : createPostTx req user ids db with
        | error e =>
          rw [htx] at h
          cases h
          refine ⟨?_, fun _ => rfl⟩
          rintro (hnone | hempty)
          · cases hnone
          · injection hempty with he
            subst he
            simp at hne
        | ok pr =>
          obtain ⟨db1, pid⟩ := pr
          rw [htx] at h
          try dsimp only at h
          cases h
          refine ⟨?_, ?_⟩
          · rintro (hnone | hempty)
            · cases hnone
            · injection hempty with he
              subst he
              simp at hne
          · intro hni
            exact absurd rfl (hni pid)

/-- C7: deleting a category referenced by N >= 1 posts fails with a conflict
carrying exactly N and changes nothing; with zero references the deletion is
unconditional: it succeeds when the id exists and reports not-found when it
does not. -/
theorem c7_category_delete_guard : ∀ (db : DB) (catId n : Nat),
    n = (db.post_categories.filter (fun r => r.category_id == (catId : Int))).length →
    (1 ≤ n → deleteCategoryHandler db catId = (db, DeleteCategoryResult.conflict n)) ∧
    (n = 0 →
      ((∃ c ∈ db.categories, c.id = catId) →
        deleteCategoryHandler db catId =
          ({ db with categories := db.categories.filter (fun c => c.id != catId) },
            DeleteCategoryResult.deleted)) ∧
      ((∀ c ∈ db.categories, c.id ≠ catId) →
        deleteCategoryHandler db catId = (db, DeleteCategoryResult.notFound))) := by
  intro db catId n hn
  constructor
  · intro h1
    rw [deleteCategoryHandler]
    rw [if_pos (by omega)]
    rw [hn]
  · intro h0
    constructor
    · rintro ⟨c, hc, hid⟩
      rw [deleteCategoryHandler]
      rw [if_neg (by omega)]
      rw [if_pos (by simp only [List.any_eq_true, beq_iff_eq]; exact ⟨c, hc, hid⟩)]
    · intro hno
      rw [deleteCategoryHandler]
      rw [if_neg (by omega)]
      rw [if_neg (by simp only [List.any_eq_true, beq_iff_eq]; rintro ⟨c, hc, hid⟩; exact hno c hc hid)]

/-- A created response comes from a committed transaction: the id is the
fresh serial and the posts table gained exactly the new row. -/
theorem createPostHandler_created {req : CreatePostRequest} {user : SessionUser}
    {db db' : DB} {i : Nat}
    (h : createPostHandler req user db = (db', CreatePostResult.created i)) :
    i = db.nextPostId ∧ db'.posts = db.posts ++ [newPostRow req user db.nextPostId] := by
  rw [createPostHandler] at h
  split at h
  · injection h with h1 h2
    cases h2
  · cases hp : parsedCategoryIds req.categories with
    | none =>
      rw [hp] at h
      injection h with h1 h2
      cases h2
    | some ids =>
      rw [hp] at h
      try dsimp only at h
      split at h
      · injection h with h1 h2
        cases h2
      · cases htx : createPostTx req user ids db with
        | error e =>
          rw [htx] at h
          injection h with h1 h2
          cases h2
        | ok pr =>
          obtain ⟨db1, pid⟩ := pr
          rw [htx] at h
          try dsimp only at h
          injection h with h1 h2
          injection h2 with h3
          subst h1
          subst h3
          exact createPostTx_ok htx

/-- An updated response comes from a committed transaction: every post row
with the target id now carries the request's SET clause. -/
theorem updatePostHandler_updated {req : CreatePostRequest} {postId : Nat} {db db' : DB}
    (h : updatePostHandler req postId db = (db', UpdatePostResult.updated)) :
    db'.posts = db.posts.map (fun p => if p.id == postId then updatedPostRow req p else p) := by
  rw [updatePostHandler] at h
  split at h
  · injection h with h1 h2
    cases h2
  · cases hp : parsedCategoryIds req.categories with
    | none =>
      rw [hp] at h
      injection h with h1 h2
      cases h2
    | some ids =>
      rw [hp] at h
      try dsimp only at h
      split at h
      · injection h with h1 h2
        cases h2
      · cases htx : updatePostTx req postId ids db with
        | error e =>
          rw [htx] at h
          injection h with h1 h2
          cases h2
        | ok db1 =>
          rw [htx] at h
          try dsimp only at h
          injection h with h1 h2
          subst h1
          exact updatePostTx_ok_posts htx

/-- C9 amended: on a successful create or update the stored status is
`status || 'draft'`: the supplied string is stored verbatim whenever it is
non-empty, including values outside draft/published/private, and only an
absent or empty status falls back to draft. -/
theorem c9_status_default :
    (∀ (req : CreatePostRequest) (user : SessionUser) (db db' : DB) (i : Nat),
      createPostHandler req user db = (db', CreatePostResult.created i) →
      ∃ p ∈ db'.posts, p.id = i ∧ p.status = effectiveStatus req.status) ∧
    (∀ (req : CreatePostRequest) (postId : Nat) (db db' : DB),
      updatePostHandler req postId db = (db', UpdatePostResult.updated) →
      ∀ p ∈ db'.posts, p.id = postId → p.status = effectiveStatus req.status) ∧
    effectiveStatus none = "draft" ∧
    effectiveStatus (some "") = "draft" ∧
    effectiveStatus (some "published") = "published" ∧
    effectiveStatus (some "bogus") = "bogus" ∧
    (∀ s : String, s ≠ "" → effectiveStatus (some s) = s) := by
  refine ⟨?_, ?_, rfl, rfl, rfl, rfl, ?_⟩
  · intro req user db db' i h
    obtain ⟨hi, hposts⟩ := createPostHandler_created h
    subst hi
    refine ⟨newPostRow req user db.nextPostId, ?_, rfl, rfl⟩
    rw [hposts]
    simp
  · intro req postId db db' h p hp hid
    rw [updatePostHandler_updated h] at hp
    rcases List.mem_map.mp hp with ⟨q, hq, hfq⟩
    by_cases hqid : (q.id == postId) = true
    · rw [if_pos hqid] at hfq
      rw [← hfq]
      rfl
    · rw [if_neg hqid] at hfq
      subst hfq
      exact absurd (beq_iff_eq.mpr hid) hqid
  · intro s hs
    simp only [effectiveStatus]
    rw [if_neg (by simpa using hs)]

/-- C9 counterexample: a create request supplying the invalid status value
bogus succeeds and stores bogus verbatim, not the claimed draft default. -/
theorem c9_counterexample :
    (createPostHandler reqBogusStatus userAdmin db0).2 = CreatePostResult.created 1 ∧
    reqBogusStatus.status = some "bogus" ∧
    "bogus" ≠ "draft" ∧ "bogus" ≠ "published" ∧ "bogus" ≠ "private" ∧
    (∀ p ∈ (createPostHandler reqBogusStatus userAdmin db0).1.posts, p.status = "bogus") ∧
    ¬(∀ p ∈ (createPostHandler reqBogusStatus userAdmin db0).1.posts, p.status = "draft") := by
  decide

/-- Every character the run-collapsing pass emits is a kept slug character
or the replacement hyphen. -/
theorem mem_collapseAux {c : Char} : ∀ (b : Bool) (l : List Char),
    c ∈ collapseAux b l → isSlugChar c = true ∨ c = '-' := by
  intro b l
  induction l generalizing b with
  | nil =>
    intro h
    simp [collapseAux] at h
  | cons a rest ih =>
    intro h
    rw [collapseAux] at h
    by_cases ha : isSlugChar a = true
    · rw [if_pos ha] at h
      rcases List.mem_cons.mp h with h1 | h1
      · exact Or.inl (h1 ▸ ha)
      · exact ih _ h1
    · rw [if_neg ha] at h
      cases b with
      | true =>
        rw [if_pos rfl] at h
        exact ih _ h
      | false =>
        rw [if_neg (by simp)] at h
        rcases List.mem_cons.mp h with h1 | h1
        · exact Or.inr h1
        · exact ih _ h1

/-- Inside a collapsed run the next emitted character is a kept one. -/
theorem head_collapseAux_true {c : Char} : ∀ (l : List Char),
    (collapseAux true l).head? = some c → isSlugChar c = true := by
  intro l
  induction l with
  | nil =>
    intro h
    simp [collapseAux] at h
  | cons a rest ih =>
    intro h
    rw [collapseAux] at h
    by_cases ha : isSlugChar a = true
    · rw [if_pos ha, List.head?_cons] at h
      injection h with h1
      exact h1 ▸ ha
    · rw [if_neg ha, if_pos rfl] at h
      exact ih h

/-- The collapsing pass never emits two adjacent hyphens. -/
theorem chain_collapseAux : ∀ (b : Bool) (l : List Char),
    List.Chain' (fun x y => ¬(x = '-' ∧ y = '-')) (collapseAux b l) := by
  intro b l
  induction l generalizing b with
  | nil => simp [collapseAux]
  | cons a rest ih =>
    rw [collapseAux]
    by_cases ha : isSlugChar a = true
    · rw [if_pos ha, List.chain'_cons']
      refine ⟨?_, ih false⟩
      intro y hy hcon
      rw [hcon.1] at ha
      exact absurd ha (by decide)
    · rw [if_neg ha]
      cases b with
      | true =>
        rw [if_pos rfl]
        exact ih true
      | false =>
        rw [if_neg (by simp), List.chain'_cons']
        refine ⟨?_, ih true⟩
        intro y hy hcon
        have hslug := head_collapseAux_true rest hy
        rw [hcon.2] at hslug
        exact absurd hslug (by decide)

/-- Dropping a leading hyphen from a hyphen-collapsed list leaves no leading
hyphen. -/
theorem head_dropLeadHyphen : ∀ (l : List Char),
    List.Chain' (fun x y => ¬(x = '-' ∧ y = '-')) l →
    (dropLeadHyphen l).head? ≠ some '-' := by
  intro l hch
  cases l with
  | nil => simp [dropLeadHyphen]
  | cons c rest =>
    rw [dropLeadHyphen]
    by_cases hc : c = '-'
    · rw [if_pos hc]
      intro h'
      exact (List.chain'_cons'.mp hch).1 '-' h' ⟨hc, rfl⟩
    · rw [if_neg hc, List.head?_cons]
      intro h'
      injection h' with h1
      exact hc h1

/-- Dropping a leading hyphen cannot create a trailing hyphen. -/
theorem getLast_dropLeadHyphen : ∀ (l : List Char),
    l.getLast? ≠ some '-' → (dropLeadHyphen l).getLast? ≠ some '-' := by
  intro l hl
  cases l with
  | nil => simp [dropLeadHyphen]
  | cons c rest =>
    rw [dropLeadHyphen]
    by_cases hc : c = '-'
    · rw [if_pos hc]
      cases rest with
      | nil => simp
      | cons r rs =>
        intro h'
        apply hl
        rw [List.getLast?_cons_cons]
        exact h'
    · rw [if_neg hc]
      exact hl

/-- Dropping a leading hyphen only removes characters. -/
theorem mem_dropLeadHyphen {c : Char} : ∀ (l : List Char), c ∈ dropLeadHyphen l → c ∈ l := by
  intro l h
  cases l with
  | nil => simp [dropLeadHyphen] at h
  | cons a rest =>
    rw [dropLeadHyphen] at h
    by_cases ha : a = '-'
    · rw [if_pos ha] at h
      exact List.mem_cons_of_mem a h
    · rw [if_neg ha] at h
      exact h

/-- Dropping a leading hyphen preserves hyphen separation. -/
theorem chain_dropLeadHyphen {l : List Char}
    (h : List.Chain' (fun x y => ¬(x = '-' ∧ y = '-')) l) :
    List.Chain' (fun x y => ¬(x = '-' ∧ y = '-')) (dropLeadHyphen l) := by
  cases l with
  | nil => simp [dropLeadHyphen]
  | cons a rest =>
    rw [dropLeadHyphen]
    by_cases ha : a = '-'
    · rw [if_pos ha]
      exact (List.chain'_cons'.mp h).2
    · rw [if_neg ha]
      exact h

/-- Hyphen separation is symmetric, so it survives reversal. -/
theorem chain_reverse_hyphen {l : List Char}
    (h : List.Chain' (fun x y => ¬(x = '-' ∧ y = '-')) l) :
    List.Chain' (fun x y => ¬(x = '-' ∧ y = '-')) l.reverse := by
  rw [List.chain'_reverse]
  exact h.imp (fun a b hab hcon => hab ⟨hcon.2, hcon.1⟩)

/-- C4: the slug is a function of the title alone; for every title it
consists of kept lowercase-alphanumeric characters and non-adjacent hyphens
with no leading or trailing hyphen, Hello, World!! 2024 maps to
hello-world-2024, and both the create and the update route store exactly
`slugify title` on success. -/
theorem c4_slug_derivation :
    (∀ t : String, ∀ c ∈ (slugify t).data, isSlugChar c = true ∨ c = '-') ∧
    (∀ t : String, List.Chain' (fun x y => ¬(x = '-' ∧ y = '-')) (slugify t).data) ∧
    (∀ t : String, (slugify t).data.head? ≠ some '-') ∧
    (∀ t : String, (slugify t).data.getLast? ≠ some '-') ∧
    slugify "Hello, World!! 2024" = "hello-world-2024" ∧
    (∀ (req : CreatePostRequest) (user : SessionUser) (db db' : DB) (i : Nat),
      createPostHandler req user db = (db', CreatePostResult.created i) →
      ∃ p ∈ db'.posts, p.id = i ∧ p.slug = slugify req.title) ∧
    (∀ (req : CreatePostRequest) (postId : Nat) (db db' : DB),
      updatePostHandler req postId db = (db', UpdatePostResult.updated) →
      ∀ p ∈ db'.posts, p.id = postId → p.slug = slugify req.title) := by
  have hfin : ∀ t : String, (slugify t).data =
      (dropLeadHyphen
        ((dropLeadHyphen (collapseAux false (t.data.map Char.toLower))).reverse)).reverse :=
    fun t => rfl
  refine ⟨?_, ?_, ?_, ?_, by decide, ?_, ?_⟩
  · intro t c hc
    rw [hfin] at hc
    have h1 := List.mem_reverse.mp hc
    have h2 := mem_dropLeadHyphen _ h1
    have h3 := List.mem_reverse.mp h2
    exact mem_collapseAux false _ (mem_dropLeadHyphen _ h3)
  · intro t
    rw [hfin]
    exact chain_reverse_hyphen (chain_dropLeadHyphen (chain_reverse_hyphen
      (chain_dropLeadHyphen (chain_collapseAux false _))))
  · intro t
    rw [hfin, List.head?_reverse]
    apply getLast_dropLeadHyphen
    rw [List.getLast?_reverse]
    exact head_dropLeadHyphen _ (chain_collapseAux false _)
  · intro t
    rw [hfin, List.getLast?_reverse]
    exact head_dropLeadHyphen _
      (chain_reverse_hyphen (chain_dropLeadHyphen (chain_collapseAux false _)))
  · intro req user db db' i h
    obtain ⟨hi, hposts⟩ := createPostHandler_created h
    subst hi
    refine ⟨newPostRow req user db.nextPostId, ?_, rfl, rfl⟩
    rw [hposts]
    simp
  · intro req postId db db' h p hp hid
    rw [updatePostHandler_updated h] at hp
    rcases List.mem_map.mp hp with ⟨q, hq, hfq⟩
    by_cases hqid : (q.id == postId) = true
    · rw [if_pos hqid] at hfq
      rw [← hfq]
      rfl
    · rw [if_neg hqid] at hfq
      subst hfq
      exact absurd (beq_iff_eq.mpr hid) hqid

/-- C4 witness: the character facts instantiated at the title Hello. -/
theorem c4_slug_derivation_witness :
    (isSlugChar 'h' = true ∨ 'h' = '-') ∧ (slugify "Hello").data.head? ≠ some '-' :=
  ⟨c4_slug_derivation.1 "Hello" 'h' (by decide), c4_slug_derivation.2.2.1 "Hello"⟩

/-- Membership in the viewer's comment query: the row belongs to the post and
passes the viewer's WHERE clause; the ORDER BY only permutes the rows. -/
theorem mem_commentsForViewer {db : DB} {postId : Nat} {viewer : Option SessionUser}
    {c : CommentRow} :
    c ∈ commentsForViewer db postId viewer ↔
      c ∈ db.comments ∧ c.post_id = postId ∧ commentVisible viewer c = true := by
  rw [commentsForViewer, List.mem_insertionSort, List.mem_filter]
  simp [and_assoc]

/-- C2: the single-post comment listing is exactly the per-viewer WHERE
clause applied to the post's comments: SuperAdmin sees everything, an
authenticated non-admin sees approved rows plus their own, an anonymous
viewer sees only approved rows; instantiated on the P5 two-comment state. -/
theorem c2_comment_visibility :
    (∀ (db : DB) (postId : Nat) (viewer : Option SessionUser) (c : CommentRow),
      c ∈ commentsForViewer db postId viewer ↔
        c ∈ db.comments ∧ c.post_id = postId ∧ commentVisible viewer c = true) ∧
    (∀ c : CommentRow, commentVisible none c = c.is_approved) ∧
    (∀ (u : SessionUser) (c : CommentRow), u.role = "SuperAdmin" →
      commentVisible (some u) c = true) ∧
    (∀ (u : SessionUser) (c : CommentRow), u.role ≠ "SuperAdmin" →
      commentVisible (some u) c = (c.is_approved || c.username == some u.username)) ∧
    commentsForViewer dbTwoComments 1 none = [cmtA] ∧
    commentsForViewer dbTwoComments 1 (some ⟨"B", "NormalUser"⟩) = [cmtB, cmtA] ∧
    commentsForViewer dbTwoComments 1 (some ⟨"Admin", "SuperAdmin"⟩) = [cmtB, cmtA] := by
  refine ⟨fun db postId viewer c => mem_commentsForViewer, fun c => rfl, ?_, ?_,
    by decide, by decide, by decide⟩
  · intro u c hrole
    simp only [commentVisible]
    rw [if_pos (by simpa using hrole)]
  · intro u c hrole
    simp only [commentVisible]
    rw [if_neg (by simpa using hrole)]

/-- C2 witness: the non-admin clause evaluated for viewer B on B's own
pending comment. -/
theorem c2_comment_visibility_witness :
    commentVisible (some ⟨"B", "NormalUser"⟩) cmtB =
      (cmtB.is_approved || cmtB.username == some "B") :=
  c2_comment_visibility.2.2.2.1 ⟨"B", "NormalUser"⟩ cmtB (by decide)

/-- C5: in the thread handed to the template, each comment's replyCount is
the number of other fetched comments whose parent_id is this comment's id
(assuming, as the submission flow guarantees, that no comment is its own
parent); on the P6 thread the counts are 2, 1, 0, 0. -/
theorem c5_reply_counts :
    (∀ (db : DB) (postId : Nat) (viewer : Option SessionUser),
      (∀ c ∈ db.comments, c.parent_id ≠ some c.id) →
      ∀ pr ∈ buildCommentThread db postId viewer,
        pr.2 = ((commentsForViewer db postId viewer).filter
          (fun r => r.parent_id == some pr.1.id && !(r == pr.1))).length) ∧
    (buildCommentThread dbThread 1 (some userAdmin)).map (fun pr => (pr.1.id, pr.2)) =
      [(4, 0), (3, 0), (2, 1), (1, 2)] := by
  refine ⟨?_, by decide⟩
  intro db postId viewer hself pr hpr
  rw [buildCommentThread, annotateReplyCounts] at hpr
  rcases List.mem_map.mp hpr with ⟨c, hc, hceq⟩
  subst hceq
  dsimp only
  congr 1
  apply List.filter_congr
  intro r hr
  by_cases hpar : (r.parent_id == some c.id) = true
  · have hrc : r ≠ c := by
      intro he
      subst he
      exact hself r (mem_commentsForViewer.mp hr).1 (by simpa using hpar)
    simp [hpar, hrc]
  · simp [hpar]

/-- C5 witness: the root comment of the P6 thread has replyCount 2, the
count of the other visible comments replying to it. -/
theorem c5_reply_counts_witness :
    (2 : Nat) = ((commentsForViewer dbThread 1 (some userAdmin)).filter
      (fun r => r.parent_id == some cmt1.id && !(r == cmt1))).length := by
  have h := c5_reply_counts.1 dbThread 1 (some userAdmin) (by decide) (cmt1, 2) (by decide)
  simpa using h

/-- C6: a comment submission succeeds only onto an existing published post
and, when a parent is supplied, only under a parent comment of the same
post; a missing or unpublished target yields not-found, an absent or
cross-post parent yields invalid-parent, and every non-ok outcome leaves
the comments table untouched. -/
theorem c6_comment_guards :
    ∀ (db : DB) (user : SessionUser) (slug content : String) (parentId : Option Nat)
      (now : Nat),
    ((addCommentHandler db user slug content parentId now).2 = AddCommentResult.ok →
      ∃ post ∈ db.posts, post.slug = slug ∧ post.status = "published" ∧
        ∀ pid, parentId = some pid → ∃ c ∈ db.comments, c.id = pid ∧ c.post_id = post.id) ∧
    (trimString content ≠ "" → (∀ p ∈ db.posts, ¬(p.slug = slug ∧ p.status = "published")) →
      addCommentHandler db user slug content parentId now = (db, AddCommentResult.postNotFound)) ∧
    (∀ (post : PostRow) (pid : Nat), trimString content ≠ "" →
      db.posts.find? (fun p => p.slug == slug && p.status == "published") = some post →
      parentId = some pid →
      (∀ c ∈ db.comments, ¬(c.id = pid ∧ c.post_id = post.id)) →
      addCommentHandler db user slug content parentId now =
        (db, AddCommentResult.invalidParent)) ∧
    ((addCommentHandler db user slug content parentId now).2 ≠ AddCommentResult.ok →
      (addCommentHandler db user slug content parentId now).1 = db) := by
  intro db user slug content parentId now
  by_cases htrim : (trimString content == "") = true
  · rw [addCommentHandler, if_pos htrim]
    refine ⟨?_, ?_, ?_, fun _ => rfl⟩
    · intro h
      cases h
    · intro hc _
      exact absurd (by simpa using htrim) hc
    · intro post pid hc _ _ _
      exact absurd (by simpa using htrim) hc
  · rw [addCommentHandler, if_neg htrim]
    cases hfind : db.posts.find? (fun p => p.slug == slug && p.status == "published") with
    | none =>
      refine ⟨?_, fun _ _ => rfl, ?_, fun _ => rfl⟩
      · intro h
        cases h
      · intro post pid _ hfind' _ _
        cases hfind'
    | some post =>
      have hmem := List.mem_of_find?_eq_some hfind
      have hpred := List.find?_some hfind
      rw [Bool.and_eq_true, beq_iff_eq, beq_iff_eq] at hpred
      have hno : ¬(∀ p ∈ db.posts, ¬(p.slug = slug ∧ p.status = "published")) := by
        intro hall
        exact hall post hmem ⟨hpred.1, hpred.2⟩
      cases parentId with
      | none =>
        refine ⟨?_, fun _ h => absurd h hno, ?_, ?_⟩
        · intro _
          refine ⟨post, hmem, hpred.1, hpred.2, ?_⟩
          intro pid hpid
          cases hpid
        · intro post' pid _ hfind' hpid _
          cases hpid
        · intro h
          exact absurd rfl h
      | some pid =>
        dsimp only
        by_cases hpar :
            (db.comments.any (fun c => c.id == pid && c.post_id == post.id)) = true
        · rw [if_pos hpar]
          refine ⟨?_, fun _ h => absurd h hno, ?_, ?_⟩
          · intro _
            refine ⟨post, hmem, hpred.1, hpred.2, ?_⟩
            intro pid' hpid'
            injection hpid' with he
            subst he
            rcases List.any_eq_true.mp hpar with ⟨c, hcmem, hcpred⟩
            rw [Bool.and_eq_true, beq_iff_eq, beq_iff_eq] at hcpred
            exact ⟨c, hcmem, hcpred.1, hcpred.2⟩
          · intro post' pid' _ hfind' hpid' hnoc
            injection hfind' with hpost'
            subst hpost'
            injection hpid' with he
            subst he
            exfalso
            rcases List.any_eq_true.mp hpar with ⟨c, hcmem, hcpred⟩
            rw [Bool.and_eq_true, beq_iff_eq, beq_iff_eq] at hcpred
            exact hnoc c hcmem ⟨hcpred.1, hcpred.2⟩
          · intro h
            exact absurd rfl h
        · rw [if_neg hpar]
          refine ⟨?_, fun _ h => absurd h hno, ?_, fun _ => rfl⟩
          · intro h
            cases h
          · intro post' pid' _ hfind' hpid' hnoc
            rfl

/-- Once a category pair is present, running the link loop over a list still
containing that id aborts with an error. -/
theorem insertCategoryLinks_dup_mem (pid : Nat) : ∀ (ids : List Int) (db : DB) (x : Int),
    x ∈ ids →
    db.post_categories.any (fun r => r.post_id == pid && r.category_id == x) = true →
    ∃ e, insertCategoryLinks pid db ids = Except.error e := by
  intro ids
  induction ids with
  | nil =>
    intro db x hx _
    cases hx
  | cons c rest ih =>
    intro db x hx hmem
    rw [insertCategoryLinks]
    cases h1 : insertPostCategory db pid c with
    | error e =>
      exact ⟨e, rfl⟩
    | ok db1 =>
      rcases List.mem_cons.mp hx with rfl | hx'
      · exfalso
        have hfresh := insertPostCategory_ok_fresh h1
        rw [hmem] at hfresh
        cases hfresh
      · have hmem1 :
            db1.post_categories.any (fun r => r.post_id == pid && r.category_id == x) = true := by
          rw [insertPostCategory_ok h1]
          dsimp only
          rw [List.any_append, hmem]
          rfl
        obtain ⟨e, he⟩ := ih db1 x hx' hmem1
        refine ⟨e, ?_⟩
        simp only [bind, Except.bind]
        exact he

/-- A duplicated id in the list always aborts the category-link loop: the
second insert of the same pair violates the composite primary key. -/
theorem insertCategoryLinks_dup (pid : Nat) : ∀ (ids : List Int) (db : DB),
    ¬ ids.Nodup → ∃ e, insertCategoryLinks pid db ids = Except.error e := by
  intro ids
  induction ids with
  | nil =>
    intro db h
    exact absurd List.nodup_nil h
  | cons c rest ih =>
    intro db h
    rw [insertCategoryLinks]
    cases h1 : insertPostCategory db pid c with
    | error e =>
      exact ⟨e, rfl⟩
    | ok db1 =>
      rw [List.nodup_cons] at h
      by_cases hc : c ∈ rest
      · have hmem1 :
            db1.post_categories.any (fun r => r.post_id == pid && r.category_id == c) = true := by
          rw [insertPostCategory_ok h1]
          dsimp only
          rw [List.any_append]
          simp
        obtain ⟨e, he⟩ := insertCategoryLinks_dup_mem pid rest db1 c hc hmem1
        refine ⟨e, ?_⟩
        simp only [bind, Except.bind]
        exact he
      · have hrest : ¬ rest.Nodup := fun hn => h ⟨hc, hn⟩
        obtain ⟨e, he⟩ := ih db1 hrest
        refine ⟨e, ?_⟩
        simp only [bind, Except.bind]
        exact he

/-- C10: a create request whose parsed category id list repeats an id never
succeeds — the repeated Post_Categories insert violates the composite
primary key inside the transaction — and persists nothing at all. -/
theorem c10_duplicate_category_ids :
    ∀ (req : CreatePostRequest) (user : SessionUser) (db db' : DB) (r : CreatePostResult)
      (xs : List (Option Int)),
    req.categories = CategoriesField.entries xs →
    ¬ (xs.filterMap id).Nodup →
    createPostHandler req user db = (db', r) →
    (∀ i, r ≠ CreatePostResult.created i) ∧ db' = db := by
  intro req user db db' r xs hcat hdup h
  rw [createPostHandler] at h
  split at h
  · cases h
    exact ⟨fun i h' => CreatePostResult.noConfusion h', rfl⟩
  · rw [hcat] at h
    try dsimp only [parsedCategoryIds] at h
    split at h
    · cases h
      exact ⟨fun i h' => CreatePostResult.noConfusion h', rfl⟩
    · cases htx : createPostTx req user (xs.filterMap id) db with
      | error e =>
        rw [htx] at h
        cases h
        exact ⟨fun i h' => CreatePostResult.noConfusion h', rfl⟩
      | ok pr =>
        exfalso
        obtain ⟨db1, pid⟩ := pr
        rw [createPostTx] at htx
        cases h1 : insertPost { db with nextPostId := db.nextPostId + 1 }
            (newPostRow req user db.nextPostId) with
        | error e =>
          rw [h1] at htx
          cases htx
        | ok dbp =>
          rw [h1] at htx
          simp only [bind, Except.bind] at htx
          obtain ⟨e, he⟩ := insertCategoryLinks_dup db.nextPostId (xs.filterMap id) dbp hdup
          rw [he] at htx
          cases htx

/-- C3 counterexample: the create request with tags JS, js (padded), Js does
not succeed: the second occurrence of the normalized name js makes the
Post_Tags insert violate the composite primary key, the transaction rolls
back with a server error, and afterwards there is no Tag row and no link. -/
theorem c3_counterexample :
    (createPostHandler reqDupTags userAdmin db0).2 = CreatePostResult.serverError ∧
    (createPostHandler reqDupTags userAdmin db0).1 = db0 ∧
    (createPostHandler reqDupTags userAdmin db0).1.tags = [] ∧
    (createPostHandler reqDupTags userAdmin db0).1.post_tags = [] := by decide

/-- C3 amended: submitting tags JS, js (padded), Js on one create request
fails with a server error and persists no row at all; the lowercase-and-trim
normalization itself holds, so the single tag spelling " JS " yields exactly
one Tag row named js and exactly one Post_Tags link. -/
theorem c3_tag_normalization :
    normalizeTagName "JS" = "js" ∧ normalizeTagName " js " = "js" ∧
    normalizeTagName "Js" = "js" ∧ normalizeTagName " JS " = "js" ∧
    (createPostHandler reqDupTags userAdmin db0).2 = CreatePostResult.serverError ∧
    (createPostHandler reqDupTags userAdmin db0).1 = db0 ∧
    (createPostHandler reqOneTag userAdmin db0).2 = CreatePostResult.created 1 ∧
    (createPostHandler reqOneTag userAdmin db0).1.tags = [⟨1, "js"⟩] ∧
    (createPostHandler reqOneTag userAdmin db0).1.post_tags = [⟨1, 1⟩] := by decide

/-- C8 counterexample: deleting an existing post issues the DELETE statements
as comments, tag links, category links, post row — not in the claimed order
comments, category links, tag links, post row. -/
theorem c8_counterexample :
    (deletePostHandler dbPost1 1).2.1 ≠
      [DeleteStep.delComments, DeleteStep.delPostCategories,
       DeleteStep.delPostTags, DeleteStep.delPostRow] ∧
    (deletePostHandler dbPost1 1).2.1 =
      [DeleteStep.delComments, DeleteStep.delPostTags,
       DeleteStep.delPostCategories, DeleteStep.delPostRow] := by decide

/-- C1 witness: the malformed-categories request is answered with a client
input error and the database is unchanged. -/
theorem c1_atomic_create_witness :
    (createPostHandler reqMalformedCats userAdmin db0).2.isClientInputError = true ∧
    (createPostHandler reqMalformedCats userAdmin db0).1 = db0 :=
  (c1_atomic_create reqMalformedCats userAdmin db0
    (createPostHandler reqMalformedCats userAdmin db0).1
    (createPostHandler reqMalformedCats userAdmin db0).2 rfl).1 (Or.inl rfl)

/-- C6 witness: a comment citing the nonexistent parent 99 is rejected as
invalid-parent on the two-comment state. -/
theorem c6_comment_guards_witness :
    addCommentHandler dbTwoComments userAdmin "t" "hi" (some 99) 9 =
      (dbTwoComments, AddCommentResult.invalidParent) :=
  (c6_comment_guards dbTwoComments userAdmin "t" "hi" (some 99) 9).2.2.1 postPub 99
    (by decide) (by decide) rfl (by decide)

/-- C7 witness: category 1, used by one post, is blocked with conflict 1. -/
theorem c7_category_delete_guard_witness :
    deleteCategoryHandler dbCatUsed 1 = (dbCatUsed, DeleteCategoryResult.conflict 1) :=
  (c7_category_delete_guard dbCatUsed 1 1 (by decide)).1 (by decide)

/-- C9 witness: the base request stores status draft, the effective value of
its absent status field. -/
theorem c9_status_default_witness :
    ∃ p ∈ (createPostHandler reqBase userAdmin db0).1.posts,
      p.id = 1 ∧ p.status = effectiveStatus reqBase.status := by
  have hpair : createPostHandler reqBase userAdmin db0 =
      ((createPostHandler reqBase userAdmin db0).1, CreatePostResult.created 1) := by
    have h2 : (createPostHandler reqBase userAdmin db0).2 = CreatePostResult.created 1 := by
      decide
    rw [← h2]
  exact c9_status_default.1 reqBase userAdmin db0 _ 1 hpair

/-- C10 witness: the request listing category 1 twice fails and changes
nothing. -/
theorem c10_duplicate_category_ids_witness :
    (∀ i, (createPostHandler reqDupCats userAdmin db0).2 ≠ CreatePostResult.created i) ∧
    (createPostHandler reqDupCats userAdmin db0).1 = db0 :=
  c10_duplicate_category_ids reqDupCats userAdmin db0
    (createPostHandler reqDupCats userAdmin db0).1
    (createPostHandler reqDupCats userAdmin db0).2
    [some 1, some 1] rfl (by decide) rfl

/-- C8 amended: deleting a missing post id is a not-found no-op; deleting an
existing one removes, inside one transaction, its comments, then its tag
links, then its category links, then the post row, in that order. -/
theorem c8_delete_post : ∀ (db : DB) (postId : Nat),
    ((∀ p ∈ db.posts, p.id ≠ postId) →
      deletePostHandler db postId = (db, [], DeletePostResult.notFound)) ∧
    ((∃ p ∈ db.posts, p.id = postId) →
      (deletePostHandler db postId).2 =
        ([DeleteStep.delComments, DeleteStep.delPostTags,
          DeleteStep.delPostCategories, DeleteStep.delPostRow], DeletePostResult.deleted) ∧
      (deletePostHandler db postId).1.comments =
        db.comments.filter (fun c => c.post_id != postId) ∧
      (deletePostHandler db postId).1.post_tags =
        db.post_tags.filter (fun r => r.post_id != postId) ∧
      (deletePostHandler db postId).1.post_categories =
        db.post_categories.filter (fun r => r.post_id != postId) ∧
      (deletePostHandler db postId).1.posts =
        db.posts.filter (fun p => p.id != postId)) := by
  intro db postId
  constructor
  · intro h
    have hc : ¬(db.posts.any (fun p => p.id == postId) = true) := by
      simp only [List.any_eq_true, beq_iff_eq]
      rintro ⟨p, hmem, hid⟩
      exact h p hmem hid
    rw [deletePostHandler, if_neg hc]
  · rintro ⟨p, hp, hid⟩
    have hc : db.posts.any (fun q => q.id == postId) = true := by
      simp only [List.any_eq_true, beq_iff_eq]
      exact ⟨p, hp, hid⟩
    rw [deletePostHandler, if_pos hc]
    exact ⟨rfl, rfl, rfl, rfl, rfl⟩

/-- C8 witness: the delete trace and outcome on the one-post state. -/
theorem c8_delete_post_witness :
    (deletePostHandler dbPost1 1).2 =
      ([DeleteStep.delComments, DeleteStep.delPostTags,
        DeleteStep.delPostCategories, DeleteStep.delPostRow], DeletePostResult.deleted) :=
  ((c8_delete_post dbPost1 1).2 ⟨postPub, by decide, by decide⟩).1

end BlogSpec
